import Mathlib

/-!
Shallow embedding of the batch extraction pipeline of the `alibaba-crawler`
repository (`simple_batch_1688.py`, `batch_1688.py`, `enhanced_1688.py`),
together with theorems settling the frozen claims about it.

Modelling conventions:
* Python strings are `String`; Python's `needle in hay` is `pyIn`,
  `s.strip()` is `pyStrip`, `s.lower()` is `pyLower`,
  `s.startswith(p)` is `pyStartsWith`.
* A browser page is given by the data the extractors read from it: the text
  of the first element matching a CSS selector (`String → Option String`,
  `none` models `NoSuchElementException`), the texts of all matching
  elements (`String → List String`), the visible body text, the page title
  (`none` models a raised title access), table rows as lists of cell texts,
  and `img` elements as attribute association lists.
* `int(s)` on the digit strings appearing here is `pyToNat?`
  (`none` models a raised `ValueError`).
* `list(set(xs))` is modelled as deduplication keeping the first
  occurrence of each element (`dedupFirst`); CPython's set iteration order
  is unspecified, and every order-independent statement proved below
  (lengths, distinctness, membership) holds for any order.
* Sleeps and logging have no observable effect and are not modelled.
-/

namespace AlibabaCrawler

/-! ### Python string primitives -/

/-- Is `pat` equal to a leading segment of `cs`? -/
def startsWithChars : List Char → List Char → Bool
  | [], _ => true
  | _ :: _, [] => false
  | a :: as, b :: bs => a = b && startsWithChars as bs

/-- Does `needle` occur as a contiguous segment of `hay`? -/
def hasSubChars (needle : List Char) : List Char → Bool
  | [] => needle.isEmpty
  | c :: rest => startsWithChars needle (c :: rest) || hasSubChars needle rest

/-- Python's substring test `needle in hay`. -/
def pyIn (needle hay : String) : Bool :=
  hasSubChars needle.data hay.data

/-- Python's `s.strip()`: whitespace removed at both ends (the inputs here
are ASCII, where Python's whitespace set and `Char.isWhitespace` agree). -/
def pyStrip (s : String) : String :=
  String.mk
    (((s.data.dropWhile Char.isWhitespace).reverse.dropWhile Char.isWhitespace).reverse)

/-- Python's `s.lower()` (the URLs lowercased here are ASCII). -/
def pyLower (s : String) : String :=
  String.mk (s.data.map Char.toLower)

/-- Python's `s.startswith(pre)`. -/
def pyStartsWith (s pre : String) : Bool :=
  startsWithChars pre.data s.data

/-- Python's `int(s)` on the non-negative decimal strings appearing here:
the value for a non-empty all-digit string, `none` (a raised
`ValueError`) otherwise. -/
def pyToNat? (s : String) : Option Nat :=
  if s.data.isEmpty then none
  else if s.data.all Char.isDigit then
    some (s.data.foldl (fun n c => n * 10 + (c.toNat - '0'.toNat)) 0)
  else none

/-- Python's `attr_value or default` on an optional string attribute:
`None` and the empty string both fall back to the default. -/
def pyOrStr (o : Option String) (d : String) : String :=
  match o with
  | none => d
  | some s => if s = "" then d else s

/-- Deduplication keeping the first occurrence of each element; models
`list(set(xs))` with a fixed iteration order (see the module comment). -/
def dedupFirstGo (seen : List String) : List String → List String
  | [] => []
  | x :: xs => if x ∈ seen then dedupFirstGo seen xs else x :: dedupFirstGo (x :: seen) xs

/-- `list(set(xs))` in first-occurrence order. -/
def dedupFirst (xs : List String) : List String := dedupFirstGo [] xs

theorem dedupFirstGo_nodup (xs : List String) :
    ∀ seen, (dedupFirstGo seen xs).Nodup ∧ ∀ a ∈ dedupFirstGo seen xs, a ∉ seen := by
  induction xs with
  | nil => intro seen; simp [dedupFirstGo]
  | cons x xs ih =>
    intro seen
    by_cases hx : x ∈ seen
    · simpa [dedupFirstGo, hx] using ih seen
    · have h' := ih (x :: seen)
      refine ⟨?_, ?_⟩
      · simp only [dedupFirstGo, hx, if_false, List.nodup_cons]
        refine ⟨fun hmem => ?_, h'.1⟩
        exact (h'.2 x hmem) (List.mem_cons_self x seen)
      · intro a ha
        simp only [dedupFirstGo, hx, if_false, List.mem_cons] at ha
        rcases ha with rfl | ha
        · exact hx
        · intro haseen
          exact (h'.2 a ha) (List.mem_cons_of_mem _ haseen)

theorem dedupFirst_nodup (xs : List String) : (dedupFirst xs).Nodup :=
  (dedupFirstGo_nodup xs []).1

theorem dedupFirstGo_subset (xs : List String) :
    ∀ seen, ∀ a ∈ dedupFirstGo seen xs, a ∈ xs := by
  induction xs with
  | nil => intro seen a ha; simp [dedupFirstGo] at ha
  | cons x xs ih =>
    intro seen a ha
    by_cases hx : x ∈ seen
    · simp only [dedupFirstGo, hx, if_true] at ha
      exact List.mem_cons_of_mem _ (ih seen a ha)
    · simp only [dedupFirstGo, hx, if_false, List.mem_cons] at ha
      rcases ha with rfl | ha
      · exact List.mem_cons_self _ _
      · exact List.mem_cons_of_mem _ (ih (x :: seen) a ha)

theorem dedupFirst_subset (xs : List String) : ∀ a ∈ dedupFirst xs, a ∈ xs :=
  dedupFirstGo_subset xs []

/-! ### The regular expressions used by the extractors

The price, MOQ and phone patterns of the source are fixed expressions built
from literal characters and one-or-more repetitions of a character class.
In every one of them the character that follows a repetition is outside the
repeated class, so Python's leftmost-greedy backtracking matching coincides
with plain greedy matching, which is what `matchToks` implements;
`findallToks` is `re.findall`'s non-overlapping left-to-right scan. -/

/-- One token of a pattern: a literal character, or one-or-more characters
of a class (`+` applied to a character class). -/
inductive PatTok where
  | lit (c : Char)
  | plus (cls : Char → Bool)

/-- Longest leading run of characters in the class, and the rest. -/
def takeCls (cls : Char → Bool) : List Char → List Char × List Char
  | [] => ([], [])
  | c :: cs =>
    if cls c then
      let (t, r) := takeCls cls cs
      (c :: t, r)
    else ([], c :: cs)

/-- Greedy match of a token list at the start of `cs`:
`some (matched, rest)` or `none`. -/
def matchToks : List PatTok → List Char → Option (List Char × List Char)
  | [], cs => some ([], cs)
  | PatTok.lit _ :: _, [] => none
  | PatTok.lit c :: ps, c' :: cs =>
    if c = c' then (matchToks ps cs).map (fun pr => (c :: pr.1, pr.2)) else none
  | PatTok.plus cls :: ps, cs =>
    let (t, r) := takeCls cls cs
    if t.isEmpty then none
    else (matchToks ps r).map (fun pr => (t ++ pr.1, pr.2))

/-- `re.findall`: scan left to right, at each position emit the match
starting there if any and continue after it, else advance one character.
The fuel starts at the text's length, an upper bound on the number of scan
steps since every pattern used here matches at least one character. -/
def findallGo (p : List PatTok) : Nat → List Char → List String
  | 0, _ => []
  | _, [] => []
  | Nat.succ fuel, c :: rest =>
    match matchToks p (c :: rest) with
    | some (m, r) =>
      if m.isEmpty then findallGo p fuel rest
      else String.mk m :: findallGo p fuel r
    | none => findallGo p fuel rest

/-- `re.findall(pattern, text)` for the fixed patterns modelled here. -/
def findallToks (p : List PatTok) (text : String) : List String :=
  findallGo p text.data.length text.data

def isDigitChar (c : Char) : Bool := c.isDigit

/-- The class `[\d,.]`. -/
def isDigitCommaDot (c : Char) : Bool := c.isDigit || c = ',' || c = '.'

/-- `￥[\d,.]+` (fullwidth yen sign). -/
def pat_fullwidth_yen : List PatTok := [.lit '￥', .plus isDigitCommaDot]

/-- `¥[\d,.]+`. -/
def pat_yen : List PatTok := [.lit '¥', .plus isDigitCommaDot]

/-- `\d+\.\d+元`. -/
def pat_decimal_yuan : List PatTok :=
  [.plus isDigitChar, .lit '.', .plus isDigitChar, .lit '元']

/-- `\d+\.\d+-\d+\.\d+`. -/
def pat_range : List PatTok :=
  [.plus isDigitChar, .lit '.', .plus isDigitChar, .lit '-',
   .plus isDigitChar, .lit '.', .plus isDigitChar]

/-- `\d+\.\d+起`. -/
def pat_qi : List PatTok :=
  [.plus isDigitChar, .lit '.', .plus isDigitChar, .lit '起']

/-- The `price_patterns` list, in source order. -/
def price_patterns : List (List PatTok) :=
  [pat_fullwidth_yen, pat_yen, pat_decimal_yuan, pat_range, pat_qi]

/-- All regex matches of the price patterns over the visible body text, in
pattern order (`prices.extend(matches)` for each pattern). -/
def re_price_matches (body : String) : List String :=
  price_patterns.flatMap (fun p => findallToks p body)

/-! ### Price extraction (`extract_price`, identical in both scripts up to
the selector list) -/

def simple_price_selectors : List String :=
  [".price", ".offer-price", ".d-price", ".unit-price",
   "[class*=\"price\"]", ".price-range", ".price-original", ".price-now"]

def batch_price_selectors : List String :=
  [".price", ".offer-price", ".d-price", ".unit-price",
   "[class*=\"price\"]", "[data-testid*=\"price\"]",
   ".price-range", ".price-original", ".price-now"]

/-- `any(char in text for char in ['￥', '¥', '元', '.'])`. -/
def priceTextOk (t : String) : Bool :=
  t ≠ "" && ['￥', '¥', '元', '.'].any (fun c => t.data.contains c)

/-- The stripped texts of all elements matching the price selectors that
contain a currency marker or a dot, in selector order. -/
def selectorPriceTexts (selectors : List String) (cssAll : String → List String) :
    List String :=
  selectors.flatMap (fun sel =>
    (cssAll sel).filterMap (fun raw =>
      let t := pyStrip raw
      if priceTextOk t then some t else none))

/-- The `prices` list of `extract_price` before deduplication: selector
texts followed by the regex matches over the body text. -/
def priceCandidates (selectors : List String) (cssAll : String → List String)
    (body : String) : List String :=
  selectorPriceTexts selectors cssAll ++ re_price_matches body

/-- `extract_price`: `None` when nothing matched, otherwise
`list(set(prices))[:3]`. -/
def extract_price (selectors : List String) (cssAll : String → List String)
    (body : String) : Option (List String) :=
  if (priceCandidates selectors cssAll body).isEmpty then none
  else some ((dedupFirst (priceCandidates selectors cssAll body)).take 3)

/-! ### Title extraction (`extract_title`) -/

def simple_title_selectors : List String :=
  ["h1", ".offer-title", ".d-title", ".detail-title",
   "[class*=\"title\"]", "[class*=\"name\"]", ".product-name"]

def batch_title_selectors : List String :=
  ["h1", ".offer-title", ".d-title", ".detail-title",
   "[class*=\"title\"]", "[class*=\"name\"]", ".product-name",
   "title", "[data-spm-anchor-id*=\"title\"]"]

/-- The selector loop of `extract_title`: first selector whose element's
stripped text is non-empty and longer than 3 characters. -/
def firstSelectorTitle (css1 : String → Option String) :
    List String → Option String
  | [] => none
  | sel :: rest =>
    match css1 sel with
    | some raw =>
      let t := pyStrip raw
      if t ≠ "" ∧ t.length > 3 then some t else firstSelectorTitle css1 rest
    | none => firstSelectorTitle css1 rest

/-- The page-title fallback of `extract_title`: the title is returned only
when it is non-empty and does not contain the brand token `"1688"`. -/
def titleFallback (pageTitle : Option String) : Option String :=
  match pageTitle with
  | some pt => if pt ≠ "" ∧ pyIn "1688" pt = false then some pt else none
  | none => none

/-- `extract_title`: ordered CSS selectors, then the page-title fallback. -/
def extract_title (selectors : List String) (css1 : String → Option String)
    (pageTitle : Option String) : Option String :=
  match firstSelectorTitle css1 selectors with
  | some t => some t
  | none => titleFallback pageTitle

/-! ### Supplier and description extraction -/

def supplier_selectors : List String :=
  [".company-name", ".supplier-name", ".shop-name",
   "[class*=\"company\"]", "[class*=\"supplier\"]", "[class*=\"shop\"]"]

/-- `extract_supplier`: first selector whose stripped text is longer than
2 characters. -/
def extract_supplier (css1 : String → Option String) : Option String :=
  go supplier_selectors
where
  go : List String → Option String
  | [] => none
  | sel :: rest =>
    match css1 sel with
    | some raw =>
      let t := pyStrip raw
      if t ≠ "" ∧ t.length > 2 then some t else go rest
    | none => go rest

def desc_selectors : List String :=
  [".description", ".detail-desc", ".product-desc",
   "[class*=\"desc\"]", "[class*=\"detail\"]"]

/-- `extract_description` (batch script): first selector whose stripped
text is longer than 10 characters. -/
def extract_description (css1 : String → Option String) : Option String :=
  go desc_selectors
where
  go : List String → Option String
  | [] => none
  | sel :: rest =>
    match css1 sel with
    | some raw =>
      let t := pyStrip raw
      if t ≠ "" ∧ t.length > 10 then some t else go rest
    | none => go rest

/-! ### Specification extraction (`extract_specifications`, identical in
both scripts) -/

/-- Python `dict` assignment `specs[key] = value`: overwrite in place when
the key exists, append otherwise. -/
def dictInsert (m : List (String × String)) (k v : String) :
    List (String × String) :=
  match m with
  | [] => [(k, v)]
  | (k', v') :: rest =>
    if k' = k then (k', v) :: rest else (k', v') :: dictInsert rest k v

/-- Python `dict` lookup. -/
def dictGet? (m : List (String × String)) (k : String) : Option String :=
  match m with
  | [] => none
  | (k', v') :: rest => if k' = k then some v' else dictGet? rest k

/-- One table row: with at least two cells, bind stripped cell 1 to
stripped cell 2 when both are non-empty. -/
def specStep (specs : List (String × String)) (row : List String) :
    List (String × String) :=
  match row with
  | c0 :: c1 :: _ =>
    let key := pyStrip c0
    let value := pyStrip c1
    if key ≠ "" ∧ value ≠ "" then dictInsert specs key value else specs
  | _ => specs

/-- `extract_specifications`: scan every row of every table in order,
accumulating into a dict (tables are given as a list of tables, each a
list of rows, each a list of `td` cell texts). -/
def extract_specifications (tables : List (List (List String))) :
    List (String × String) :=
  (tables.flatMap (fun t => t)).foldl specStep []

/-! ### MOQ extraction (`extract_moq`, identical logic in both scripts) -/

def moq_keywords : List String := ["起订量", "最小", "MOQ", "起批"]

/-- Longest leading digit run of `cs` and the rest. -/
def takeDigits (cs : List Char) : List Char × List Char := takeCls isDigitChar cs

/-- Match `[：:]\s*(\d+)` at the start of `cs`, giving the captured digit
group. -/
def moqTail (cs : List Char) : Option String :=
  match cs with
  | [] => none
  | c :: rest =>
    if c = '：' ∨ c = ':' then
      let afterWs := rest.dropWhile (fun ch => ch.isWhitespace)
      let (ds, _) := takeDigits afterWs
      if ds.isEmpty then none else some (String.mk ds)
    else none

/-- `re.search(rf'{keyword}[：:]\s*(\d+)', text)`: leftmost occurrence of
the keyword followed by a colon, optional whitespace and digits; the
result is the digit group. -/
def searchMoq (kw : String) : List Char → Option String
  | [] => none
  | c :: rest =>
    match
      (if startsWithChars kw.data (c :: rest) then
        moqTail ((c :: rest).drop kw.data.length)
      else none)
    with
    | some v => some v
    | none => searchMoq kw rest

/-- `extract_moq`: first keyword (in list order) whose pattern matches the
body text. -/
def extract_moq (body : String) : Option String :=
  go moq_keywords
where
  go : List String → Option String
  | [] => none
  | kw :: rest =>
    match searchMoq kw body.data with
    | some v => some v
    | none => go rest

/-! ### Contact extraction (`extract_contact_info`, batch script) -/

/-- Match the fixed-length phone pattern `1[3-9]\d{9}` at the start of
`cs`: eleven characters, `'1'`, one of `'3'`–`'9'`, then nine digits. -/
def phoneAt (cs : List Char) : Option (String × List Char) :=
  match cs with
  | '1' :: c2 :: rest =>
    if ('3' ≤ c2 ∧ c2 ≤ '9') ∧ 9 ≤ rest.length ∧ (rest.take 9).all isDigitChar then
      some (String.mk ('1' :: c2 :: rest.take 9), rest.drop 9)
    else none
  | _ => none

/-- `re.findall(r'1[3-9]\d{9}', text)`. -/
def findPhonesGo : Nat → List Char → List String
  | 0, _ => []
  | _, [] => []
  | Nat.succ fuel, c :: rest =>
    match phoneAt (c :: rest) with
    | some (m, r) => m :: findPhonesGo fuel r
    | none => findPhonesGo fuel rest

/-- `extract_contact_info`: deduplicated phone numbers capped to 3, under
the `"phone"` key when any were found. -/
def extract_contact_info (body : String) : List (String × List String) :=
  let phones := findPhonesGo body.data.length body.data
  if phones.isEmpty then [] else [("phone", (dedupFirst phones).take 3)]

/-! ### The anti-bot gate (`wait_and_handle_captcha`) -/

def simple_captcha_keywords : List String :=
  ["验证码", "captcha", "滑动验证", "点击验证", "拖动"]

def batch_captcha_keywords : List String :=
  ["验证码", "captcha", "滑动验证", "点击验证", "拖动", "security"]

/-- `wait_and_handle_captcha` over the texts of the page's elements (the
XPath `//*[contains(text(), kw)]` finds an element whose text contains the
keyword). The result is `(detected, prompts)`: `prompts` counts the
blocking `input()` calls issued, i.e. the operator acknowledgments the
call waits for before returning. No keyword applies: `(false, 0)` with no
wait and no delay. -/
def wait_and_handle_captcha (keywords : List String)
    (elementTexts : List String) : Bool × Nat :=
  match keywords with
  | [] => (false, 0)
  | kw :: rest =>
    if elementTexts.any (fun t => pyIn kw t) then (true, 1)
    else wait_and_handle_captcha rest elementTexts

/-! ### The human-behavior simulator (`human_simulate`) -/

/-- The session state `human_simulate` interacts with: whether
`execute_script` raises, and with which message. -/
structure Session where
  scriptError : Option String
deriving DecidableEq, Repr

/-- `driver.execute_script(...)`. -/
def execute_script (s : Session) : Except String Unit :=
  match s.scriptError with
  | some e => Except.error e
  | none => Except.ok ()

/-- `human_simulate`: one `execute_script` call per random scroll
increment (the randomly drawn scroll amounts are the `scrolls` argument;
the jittered sleeps have no observable effect). The source wraps none of
this in `try`/`except`, so an error raised by `execute_script` propagates
to the caller. -/
def human_simulate (s : Session) (scrolls : List Nat) : Except String Unit :=
  match scrolls with
  | [] => Except.ok ()
  | _ :: rest =>
    match execute_script s with
    | Except.error e => Except.error e
    | Except.ok _ => human_simulate s rest

/-! ### The batch orchestrator (`process_all_urls` /
`process_multiple_urls`)

Each loop iteration either appends the extracted record to
`all_products_data` (when `extract_single_product` returned data) or
appends `(index, url)` to `failed_urls` (when it returned `None`, which is
also what every exception path inside it produces). `step i url` is that
per-item outcome; the warm-up navigation, per-item persistence and the
randomized inter-item sleeps do not affect the accounting. -/

def processFrom (step : Nat → String → Option α) :
    Nat → List String → List α × List (Nat × String)
  | _, [] => ([], [])
  | i, url :: rest =>
    match step i url with
    | some r =>
      let (rs, fs) := processFrom step (i + 1) rest
      (r :: rs, fs)
    | none =>
      let (rs, fs) := processFrom step (i + 1) rest
      (rs, (i, url) :: fs)

/-- `process_all_urls`: enumerate from 1, returning
`(all_products_data, failed_urls)`. -/
def process_all_urls (step : Nat → String → Option α) (urls : List String) :
    List α × List (Nat × String) :=
  processFrom step 1 urls

/-! ### The image collector and ranker (`extract_images` of
`simple_batch_1688.py` and its helpers) -/

/-- An `img` DOM element, given by its attributes;
`get_attribute(name)` is an association-list lookup (`none` = attribute
absent, i.e. Python `None`). -/
structure ImgElement where
  attrs : List (String × String)
deriving DecidableEq, Repr

def getAttr (e : ImgElement) (name : String) : Option String :=
  e.attrs.lookup name

/-- One discovered image candidate (the per-image dict built by
`extract_images`). -/
structure ImageCandidate where
  url : String
  alt : String
  width : String
  height : String
  cls : String
  source : String
deriving DecidableEq, Repr

def step1_attrs : List String :=
  ["src", "data-src", "data-original", "data-lazy", "data-img", "data-url"]

def best_url_attrs : List String :=
  ["data-original", "data-src", "data-lazy", "src", "data-img", "data-url"]

def image_exts6 : List String := [".jpg", ".jpeg", ".png", ".webp", ".gif", ".bmp"]

def image_exts5 : List String := [".jpg", ".jpeg", ".png", ".webp", ".gif"]

def image_exts4 : List String := [".jpg", ".jpeg", ".png", ".webp"]

def exclude_patterns : List String :=
  ["icon", "logo", "btn", "button", "arrow", "star", "rating",
   "header", "footer", "nav", "menu", "banner", "ad",
   "sprite", "background", "bg", "decoration"]

def url_exclude_keywords : List String :=
  ["icon", "logo", "btn", "arrow", "star", "sprite"]

/-- The attribute loop of step 1 of `extract_images`: first attribute whose
value starts with `http` and has a recognized image extension (checked on
the lowercased URL) or is on an alicdn host. -/
def step1ImgUrl (e : ImgElement) : Option String :=
  go step1_attrs
where
  go : List String → Option String
  | [] => none
  | a :: rest =>
    match getAttr e a with
    | some url =>
      if pyStartsWith url "http" then
        if image_exts6.any (fun ext => pyIn ext (pyLower url)) then some url
        else if pyIn "alicdn.com" url || pyIn "img.alicdn.com" url then some url
        else go rest
      else go rest
    | none => go rest

/-- `get_best_image_url`: high-resolution-hint attributes first, then the
default source attribute; a URL is accepted when it carries a large-file
hint, a recognized extension, or an alicdn host. -/
def get_best_image_url (e : ImgElement) : Option String :=
  go best_url_attrs
where
  go : List String → Option String
  | [] => none
  | a :: rest =>
    match getAttr e a with
    | some url =>
      if pyStartsWith url "http" then
        if pyIn "_b.jpg" url || pyIn "_large" url || pyIn "_big" url then some url
        else if image_exts5.any (fun ext => pyIn ext (pyLower url)) then some url
        else if pyIn "alicdn.com" url then some url
        else go rest
      else go rest
    | none => go rest

/-- `int(img_element.get_attribute(name) or 0)`: a missing or empty
attribute gives 0; a non-numeric one raises, modelled as `none`. -/
def parseDim (e : ImgElement) (name : String) : Option Nat :=
  match getAttr e name with
  | none => some 0
  | some s => if s = "" then some 0 else pyToNat? s

/-- `is_product_image`: reject URLs with a decoration keyword, then reject
declared sizes below the thresholds (skipped entirely when a dimension
fails to parse, as the source swallows the `ValueError`), then accept
alicdn URLs or URLs with a common image extension. -/
def is_product_image (url : String) (elem : Option ImgElement) : Bool :=
  let url_lower := pyLower url
  if exclude_patterns.any (fun pat => pyIn pat url_lower) then false
  else
    let sizeReject : Bool :=
      match elem with
      | none => false
      | some e =>
        match parseDim e "width", parseDim e "height" with
        | some w, some h =>
          if w > 0 && h > 0 && (w < 50 || h < 50) then true
          else if w > 0 && h > 0 && w * h < 2500 then true
          else false
        | _, _ => false
    if sizeReject then false
    else if pyIn "alicdn.com" url then true
    else if image_exts4.any (fun ext => pyIn ext url_lower) then true
    else false

/-- `is_valid_product_image_url`. -/
def is_valid_product_image_url (url : String) : Bool :=
  if url = "" || url.length < 20 then false
  else if !pyStartsWith url "https://" then false
  else
    let url_lower := pyLower url
    if !(image_exts5.any (fun ext => pyIn ext url_lower) || pyIn "alicdn.com" url_lower)
    then false
    else if url_exclude_keywords.any (fun kw => pyIn kw url_lower) then false
    else true

/-- The candidate dict built for a DOM `img` element found in step 1
(origin tag `img_tag`), after the `is_product_image` filter. -/
def imgTagCandidate (e : ImgElement) : Option ImageCandidate :=
  match step1ImgUrl e with
  | some url =>
    if is_product_image url (some e) then
      some ⟨url, pyOrStr (getAttr e "alt") "", pyOrStr (getAttr e "width") "0",
            pyOrStr (getAttr e "height") "0", pyOrStr (getAttr e "class") "",
            "img_tag"⟩
    else none
  | none => none

/-- The candidate built for a page-source regex match (origin tag
`regex_extract`), after the `is_valid_product_image_url` filter. -/
def regexCandidate (url : String) : Option ImageCandidate :=
  if is_valid_product_image_url url then
    some ⟨url, "", "0", "0", "", "regex_extract"⟩
  else none

/-- The candidate built for an image inside a gallery container (origin
tag `container_<selector>`; no product-image filter in this step). -/
def containerCandidate (sel : String) (e : ImgElement) : Option ImageCandidate :=
  (get_best_image_url e).map (fun url =>
    ⟨url, pyOrStr (getAttr e "alt") "", pyOrStr (getAttr e "width") "0",
     pyOrStr (getAttr e "height") "0", pyOrStr (getAttr e "class") "",
     "container_" ++ sel⟩)

/-- The candidate built for an image found after the lazy-load scroll
(origin tag `lazy_load`), after the `is_product_image` filter. -/
def lazyCandidate (e : ImgElement) : Option ImageCandidate :=
  match get_best_image_url e with
  | some url =>
    if is_product_image url (some e) then
      some ⟨url, pyOrStr (getAttr e "alt") "", pyOrStr (getAttr e "width") "0",
            pyOrStr (getAttr e "height") "0", pyOrStr (getAttr e "class") "",
            "lazy_load"⟩
    else none
  | none => none

/-- Append a produced candidate unless its URL is already in `seen_urls`;
on append, record the URL as seen. (In the source the seen-check and the
filter are separate `if`s; both must pass for the append and the
`seen_urls.add`, so folding the filter into the candidate producer is
equivalent.) -/
def collectStep (acc : List ImageCandidate × List String)
    (c? : Option ImageCandidate) : List ImageCandidate × List String :=
  match c? with
  | none => acc
  | some c =>
    if c.url ∈ acc.2 then acc else (acc.1 ++ [c], c.url :: acc.2)

/-- One discovery phase: fold `collectStep` over the phase's items. -/
def collectPhase (f : α → Option ImageCandidate) (items : List α)
    (acc : List ImageCandidate × List String) :
    List ImageCandidate × List String :=
  items.foldl (fun acc it => collectStep acc (f it)) acc

/-- The inputs `extract_images` reads: the DOM `img` elements, the URLs
matched by the three alicdn page-source regexes (in scan order), the
images found under each gallery-container selector, and the `img`
elements re-queried after the lazy-load scroll. -/
structure ImagePage where
  imgs : List ImgElement
  regexMatches : List String
  containerImgs : List (String × List ImgElement)
  lazyImgs : List ImgElement
deriving Repr

/-- The four discovery phases of `extract_images`, merged into one list
deduplicated by exact URL, in discovery order (before ranking). -/
def collect_images (p : ImagePage) : List ImageCandidate :=
  let acc1 := collectPhase imgTagCandidate p.imgs ([], [])
  let acc2 := collectPhase regexCandidate p.regexMatches acc1
  let containerPairs :=
    p.containerImgs.flatMap (fun pr => pr.2.map (fun e => (pr.1, e)))
  let acc3 := collectPhase (fun pr => containerCandidate pr.1 pr.2) containerPairs acc2
  let acc4 := collectPhase lazyCandidate p.lazyImgs acc3
  acc4.1

/-- `get_image_priority`: the quality score used by
`sort_images_by_quality`. -/
def get_image_priority (img : ImageCandidate) : Nat :=
  let url := pyLower img.url
  let p1 := if pyIn "_b.jpg" url || pyIn "_large" url || pyIn "_big" url then 100 else 0
  let p2 := if pyIn "cbu01.alicdn.com" url then 50 else 0
  let p3 := if ["800", "600", "400"].any (fun d => pyIn d url) then 30 else 0
  let p4 := if img.source = "img_tag" then 20 else 0
  let p5 :=
    match pyToNat? img.width, pyToNat? img.height with
    | some w, some h =>
      if w > 200 && h > 200 then 40
      else if w > 100 && h > 100 then 20
      else 0
    | _, _ => 0
  p1 + p2 + p3 + p4 + p5

/-- The comparator of `sorted(images, key=get_image_priority,
reverse=True)`: `a` may precede `b` when its priority is at least `b`'s. -/
def imageLE (a b : ImageCandidate) : Bool :=
  decide (get_image_priority b ≤ get_image_priority a)

/-- `sort_images_by_quality`: Python's stable descending sort, i.e. a
stable merge sort under `imageLE`. -/
def sort_images_by_quality (images : List ImageCandidate) : List ImageCandidate :=
  images.mergeSort imageLE

/-- `extract_images`: collect, then rank (the source returns `[]` when
nothing was collected). -/
def extract_images (p : ImagePage) : List ImageCandidate :=
  let images := collect_images p
  if images.isEmpty then [] else sort_images_by_quality images

/-! ### The batch script's simpler image extractor (`extract_images` of
`batch_1688.py`) -/

/-- The per-image dict of the batch script's extractor. -/
structure BatchImage where
  url : String
  alt : String
  width : String
  height : String
deriving DecidableEq, Repr

def batch_img_attrs : List String := ["src", "data-src", "data-original", "data-lazy"]

/-- The attribute loop of the batch extractor: first attribute whose value
starts with `http` and contains one of the four extensions (checked on the
raw URL). -/
def batchImgUrl (e : ImgElement) : Option String :=
  go batch_img_attrs
where
  go : List String → Option String
  | [] => none
  | a :: rest =>
    match getAttr e a with
    | some url =>
      if pyStartsWith url "http" && image_exts4.any (fun ext => pyIn ext url) then
        some url
      else go rest
    | none => go rest

/-- The append loop of the batch extractor, which stops once 8 images have
been collected (`if len(images) >= 8: break`). -/
def batchImagesGo : List ImgElement → List BatchImage → List BatchImage
  | [], acc => acc
  | e :: rest, acc =>
    match batchImgUrl e with
    | some url =>
      let acc' := acc ++
        [⟨url, pyOrStr (getAttr e "alt") "", pyOrStr (getAttr e "width") "0",
          pyOrStr (getAttr e "height") "0"⟩]
      if 8 ≤ acc'.length then acc' else batchImagesGo rest acc'
    | none => batchImagesGo rest acc

/-- `extract_images` of `batch_1688.py` (always a list, `[]` when nothing
was found). -/
def batch_extract_images (imgs : List ImgElement) : List BatchImage :=
  batchImagesGo imgs []

/-! ### The extraction records (`extract_single_product` of
`simple_batch_1688.py`, `extract_all_data` of `batch_1688.py`) -/

/-- The values an extraction-record field can hold. -/
inductive PyValue where
  | vnone
  | vstr (s : String)
  | vnat (n : Nat)
  | vstrList (l : List String)
  | vimgList (l : List ImageCandidate)
  | vbatchImgList (l : List BatchImage)
  | vspecMap (m : List (String × String))
  | vcontactMap (m : List (String × List String))
deriving DecidableEq, Repr

/-- An optional string field: `None` or the string. -/
def optStrVal (o : Option String) : PyValue :=
  match o with
  | none => PyValue.vnone
  | some s => PyValue.vstr s

/-- An optional string-list field (the price candidates): `None` or the
list. -/
def optStrListVal (o : Option (List String)) : PyValue :=
  match o with
  | none => PyValue.vnone
  | some l => PyValue.vstrList l

/-- Everything the extractors of one product page read. -/
structure Page where
  css1 : String → Option String
  cssAll : String → List String
  bodyText : String
  pageTitle : Option String
  currentURL : String
  timestamp : String
  tables : List (List (List String))
  imagePage : ImagePage

/-- Record lookup by key. -/
def recGet? (r : List (String × PyValue)) (k : String) : Option PyValue :=
  match r with
  | [] => none
  | (k', v) :: rest => if k' = k then some v else recGet? rest k

/-- The `product_info` dict built by `extract_single_product` of
`simple_batch_1688.py` (the surrounding navigation, captcha check and
exception handling are the per-item step of the orchestrator model). -/
def extract_single_product (index : Nat) (p : Page) : List (String × PyValue) :=
  [("index", PyValue.vnat index),
   ("url", PyValue.vstr p.currentURL),
   ("timestamp", PyValue.vstr p.timestamp),
   ("title", optStrVal (extract_title simple_title_selectors p.css1 p.pageTitle)),
   ("price", optStrListVal (extract_price simple_price_selectors p.cssAll p.bodyText)),
   ("images", PyValue.vimgList (extract_images p.imagePage)),
   ("supplier", optStrVal (extract_supplier p.css1)),
   ("specifications", PyValue.vspecMap (extract_specifications p.tables)),
   ("moq", optStrVal (extract_moq p.bodyText))]

/-- The `data` dict built by `extract_all_data` of `batch_1688.py`. -/
def extract_all_data (index : Nat) (p : Page) : List (String × PyValue) :=
  [("index", PyValue.vnat index),
   ("url", PyValue.vstr p.currentURL),
   ("timestamp", PyValue.vstr p.timestamp),
   ("title", optStrVal (extract_title batch_title_selectors p.css1 p.pageTitle)),
   ("price", optStrListVal (extract_price batch_price_selectors p.cssAll p.bodyText)),
   ("images", PyValue.vbatchImgList (batch_extract_images p.imagePage.imgs)),
   ("supplier", optStrVal (extract_supplier p.css1)),
   ("specifications", PyValue.vspecMap (extract_specifications p.tables)),
   ("description", optStrVal (extract_description p.css1)),
   ("moq", optStrVal (extract_moq p.bodyText)),
   ("contact_info", PyValue.vcontactMap (extract_contact_info p.bodyText))]

/-- The fixed key set the claims name for an extraction record. -/
def claimedRecordKeys : List String :=
  ["index", "url", "timestamp", "title", "price", "images", "supplier",
   "specifications", "moq"]

/-! ### Spec-side definitions

These follow the wording of the specification's claims and are compared
with the definitions above, which are translated from the source. -/

/-- Option alternative: the first value when present, else the second. -/
def orO (a b : Option String) : Option String :=
  match a with
  | some v => some v
  | none => b

/-- The value the claim's reading of a specification row binds to key `k`:
for a row with at least two cells, the stripped second cell, provided the
stripped first cell equals `k` and both are non-empty. -/
def rowValueFor (k : String) : List String → Option String
  | c0 :: c1 :: _ =>
    if pyStrip c0 = k ∧ pyStrip c0 ≠ "" ∧ pyStrip c1 ≠ "" then
      some (pyStrip c1)
    else none
  | _ => none

/-- The value of the last row, in scan order, that binds key `k`. -/
def lastQualifyingValue (k : String) : List (List String) → Option String
  | [] => none
  | row :: rest => orO (lastQualifyingValue k rest) (rowValueFor k row)

/-- The claim's scoring formula for an image candidate: the sum of exactly
four bonuses, each granted or not. -/
def fourBonusSum (a b c d : Bool) : Nat :=
  (if a then 100 else 0) + (if b then 50 else 0) +
  (if c then 30 else 0) + (if d then 20 else 0)

/-- A filename hint for a large or original rendition, per the spec. -/
def largeRenditionHint (url : String) : Bool :=
  ["_b.jpg", "_large", "_big"].any (fun h => pyIn h url)

/-- The preferred CDN host, per the spec. -/
def preferredCDNHost (url : String) : Bool :=
  pyIn "cbu01.alicdn.com" url

/-- A dimension token in the URL itself. -/
def urlDimensionToken (url : String) : Bool :=
  ["800", "600", "400"].any (fun d => pyIn d url)

/-- The bonus granted for the candidate's declared width and height: +40
when both exceed 200, else +20 when both exceed 100, else nothing; no
bonus when either dimension fails to parse. -/
def declaredDimsBonus (w h : Option Nat) : Nat :=
  match w, h with
  | some w', some h' =>
    if w' > 200 && h' > 200 then 40
    else if w' > 100 && h' > 100 then 20
    else 0
  | _, _ => 0

/-- The amended scoring formula: the claim's four bonuses (the +30 granted
for a dimension token in the URL, not for declared dimensions) plus the
declared-dimensions bonus. -/
def amendedImageScore (img : ImageCandidate) : Nat :=
  (if largeRenditionHint (pyLower img.url) then 100 else 0) +
  (if preferredCDNHost (pyLower img.url) then 50 else 0) +
  (if urlDimensionToken (pyLower img.url) then 30 else 0) +
  (if img.source = "img_tag" then 20 else 0) +
  declaredDimsBonus (pyToNat? img.width) (pyToNat? img.height)

/-! ### Concrete inputs used by counterexamples and witnesses -/

/-- A body text containing both price substrings the spec's test property
names. -/
def rangeBody : String := "¥199.00 ¥159.00-¥179.00"

/-- A gallery image with declared 300×300 dimensions, a plain alicdn URL
carrying none of the URL bonuses, discovered via a container selector. -/
def galleryImgElem : ImgElement :=
  ⟨[("src", "https://img10.alicdn.com/photo.png"),
    ("width", "300"), ("height", "300")]⟩

/-- A page whose only image is `galleryImgElem`, found under the first
gallery-container selector. -/
def galleryOnlyPage : ImagePage :=
  ⟨[], [], [(".offer-img", [galleryImgElem])], []⟩

/-- The candidate `extract_images` builds for `galleryImgElem`. -/
def galleryCandidate : ImageCandidate :=
  ⟨"https://img10.alicdn.com/photo.png", "", "300", "300", "",
   "container_.offer-img"⟩

/-- A session whose `execute_script` raises. -/
def failingSession : Session := ⟨some "WebDriverException: script timeout"⟩

/-- A page on which every extractor comes up empty. -/
def emptyPage : Page :=
  { css1 := fun _ => none
    cssAll := fun _ => []
    bodyText := ""
    pageTitle := none
    currentURL := "https://detail.1688.com/offer/1.html"
    timestamp := "20250101_000000"
    tables := []
    imagePage := ⟨[], [], [], []⟩ }

/-! ## Theorems -/

/-! ### The batch orchestrator (claim C1) -/

theorem processFrom_results {α : Type} (step : Nat → String → Option α)
    (urls : List String) : ∀ i : Nat,
    (processFrom step i urls).1
      = (urls.enumFrom i).filterMap (fun p => step p.1 p.2) ∧
    (processFrom step i urls).2
      = (urls.enumFrom i).filter (fun p => (step p.1 p.2).isNone) := by
  induction urls with
  | nil => intro i; simp [processFrom]
  | cons u rest ih =>
    intro i
    rcases h : step i u with _ | r
    · simp [processFrom, h, List.filterMap_cons, List.filter_cons, (ih (i + 1)).1,
        (ih (i + 1)).2, Option.isNone]
    · simp [processFrom, h, List.filterMap_cons, List.filter_cons, (ih (i + 1)).1,
        (ih (i + 1)).2, Option.isNone]

theorem processFrom_length {α : Type} (step : Nat → String → Option α)
    (urls : List String) : ∀ i : Nat,
    (processFrom step i urls).1.length + (processFrom step i urls).2.length
      = urls.length := by
  induction urls with
  | nil => intro i; simp [processFrom]
  | cons u rest ih =>
    intro i
    rcases h : step i u with _ | r
    · have := ih (i + 1)
      simp only [processFrom, h, List.length_cons]
      omega
    · have := ih (i + 1)
      simp only [processFrom, h, List.length_cons]
      omega

/-- C1. For every batch run, each target yields exactly one outcome: the
records appended to `all_products_data` are exactly the per-item step's
successes (in order), the entries of `failed_urls` are exactly the
enumerated targets on which the step produced nothing, and in particular
the number of result records plus the number of failure entries equals the
number of targets, with no target contributing to both lists. -/
theorem batch_outcome_partition {α : Type} (step : Nat → String → Option α)
    (urls : List String) :
    (process_all_urls step urls).1.length + (process_all_urls step urls).2.length
      = urls.length ∧
    (process_all_urls step urls).1
      = (urls.enumFrom 1).filterMap (fun p => step p.1 p.2) ∧
    (process_all_urls step urls).2
      = (urls.enumFrom 1).filter (fun p => (step p.1 p.2).isNone) ∧
    (∀ p ∈ (process_all_urls step urls).2, step p.1 p.2 = none) := by
  refine ⟨processFrom_length step urls 1, (processFrom_results step urls 1).1,
    (processFrom_results step urls 1).2, ?_⟩
  intro p hp
  rw [process_all_urls, (processFrom_results step urls 1).2] at hp
  have := List.of_mem_filter hp
  simpa [Option.isNone_iff_eq_none] using this

/-! ### Specification extraction (claim C6) -/

theorem orO_assoc (a b c : Option String) :
    orO (orO a b) c = orO a (orO b c) := by
  cases a <;> simp [orO]

theorem orO_none_right (a : Option String) : orO a none = a := by
  cases a <;> simp [orO]

theorem dictGet_dictInsert (m : List (String × String)) (k' v k : String) :
    dictGet? (dictInsert m k' v) k = if k' = k then some v else dictGet? m k := by
  induction m with
  | nil => simp [dictInsert, dictGet?]
  | cons kv rest ih =>
    obtain ⟨k'', v''⟩ := kv
    by_cases h1 : k'' = k'
    · subst h1
      by_cases h2 : k'' = k
      · subst h2; simp [dictInsert, dictGet?]
      · simp [dictInsert, dictGet?, h2]
    · by_cases h2 : k'' = k
      · subst h2
        have : ¬ k' = k'' := fun h => h1 h.symm
        simp [dictInsert, dictGet?, h1, this]
      · simp [dictInsert, dictGet?, h1, h2, ih]

theorem specStep_get (m : List (String × String)) (row : List String) (k : String) :
    dictGet? (specStep m row) k = orO (rowValueFor k row) (dictGet? m k) := by
  match row with
  | [] => simp [specStep, rowValueFor, orO]
  | [c0] => simp [specStep, rowValueFor, orO]
  | c0 :: c1 :: rest =>
    simp only [specStep, rowValueFor]
    by_cases hne : pyStrip c0 ≠ "" ∧ pyStrip c1 ≠ ""
    · rw [if_pos hne, dictGet_dictInsert]
      by_cases hk : pyStrip c0 = k
      · rw [if_pos hk, if_pos ⟨hk, hne.1, hne.2⟩]; rfl
      · rw [if_neg hk, if_neg (fun h => hk h.1)]; rfl
    · rw [if_neg hne, if_neg (fun h => hne ⟨h.2.1, h.2.2⟩)]; rfl

theorem foldl_specStep_get (rows : List (List String)) :
    ∀ (m : List (String × String)) (k : String),
    dictGet? (rows.foldl specStep m) k
      = orO (lastQualifyingValue k rows) (dictGet? m k) := by
  induction rows with
  | nil => intro m k; simp [lastQualifyingValue, orO]
  | cons row rest ih =>
    intro m k
    rw [List.foldl_cons, ih (specStep m row) k, specStep_get,
      lastQualifyingValue, orO_assoc]

/-- C6. The specifications extractor binds each key to the value of the
last row, in scan order over all tables, that has at least two cells, a
first cell equal to that key and non-empty stripped key and value; in
particular the duplicate-key table `[("颜色", "红"), ("颜色", "蓝")]`
resolves to `{"颜色": "蓝"}`. -/
theorem specifications_last_write_wins :
    (∀ (tables : List (List (List String))) (k : String),
      dictGet? (extract_specifications tables) k
        = lastQualifyingValue k (tables.flatMap (fun t => t))) ∧
    extract_specifications [[["颜色", "红"], ["颜色", "蓝"]]]
      = [("颜色", "蓝")] := by
  constructor
  · intro tables k
    rw [extract_specifications, foldl_specStep_get]
    simp [dictGet?, orO_none_right]
  · decide

/-! ### The human-behavior simulator (claim C8) -/

/-- C8 counterexample. On a session whose script execution raises, the
simulate operation does not return normally: the error propagates to the
caller (the source wraps none of the scroll script calls in
`try`/`except`). -/
theorem human_simulate_error_propagates :
    human_simulate failingSession [150, 300]
      = Except.error "WebDriverException: script timeout" ∧
    human_simulate failingSession [150, 300] ≠ Except.ok () := by
  constructor
  · rfl
  · intro h
    simp [human_simulate, execute_script, failingSession] at h

/-- C8 amended. The simulate operation returns normally on every session
whose script execution succeeds; when script execution raises and at
least one scroll is issued, the error is propagated to the caller rather
than swallowed. -/
theorem human_simulate_behavior (s : Session) (scrolls : List Nat) :
    (s.scriptError = none → human_simulate s scrolls = Except.ok ()) ∧
    (∀ e, s.scriptError = some e → scrolls ≠ [] →
      human_simulate s scrolls = Except.error e) := by
  constructor
  · intro h
    induction scrolls with
    | nil => rfl
    | cons x rest ih => simp [human_simulate, execute_script, h, ih]
  · intro e he hne
    match scrolls, hne with
    | x :: rest, _ => simp [human_simulate, execute_script, he]

/-! ### The anti-bot gate (claim C9) -/

/-- C9. The gate returns `false` after zero blocking prompts exactly when
no configured indicator phrase occurs in any element text; when a phrase
does occur it issues one blocking prompt (suspending until the operator's
acknowledgment) and returns `true`. -/
theorem gate_blocks_iff_indicator (keywords elementTexts : List String) :
    ((wait_and_handle_captcha keywords elementTexts).1 = true ↔
      ∃ kw ∈ keywords, ∃ t ∈ elementTexts, pyIn kw t = true) ∧
    (wait_and_handle_captcha keywords elementTexts).2
      = (if (wait_and_handle_captcha keywords elementTexts).1 = true then 1 else 0) := by
  induction keywords with
  | nil => simp [wait_and_handle_captcha]
  | cons kw rest ih =>
    unfold wait_and_handle_captcha
    by_cases h : elementTexts.any (fun t => pyIn kw t) = true
    · rw [if_pos h]
      refine ⟨⟨fun _ => ?_, fun _ => rfl⟩, rfl⟩
      obtain ⟨t, ht, hp⟩ := List.any_eq_true.mp h
      exact ⟨kw, List.mem_cons_self kw rest, t, ht, hp⟩
    · rw [if_neg h]
      refine ⟨?_, ih.2⟩
      rw [ih.1]
      constructor
      · rintro ⟨kw', hkw', t, ht, hp⟩
        exact ⟨kw', List.mem_cons_of_mem kw hkw', t, ht, hp⟩
      · rintro ⟨kw', hkw', t, ht, hp⟩
        rcases List.mem_cons.mp hkw' with rfl | h'
        · exact absurd (List.any_eq_true.mpr ⟨t, ht, hp⟩) h
        · exact ⟨kw', h', t, ht, hp⟩

/-! ### Price extraction (claims C4 and C5) -/

/-- C4. Whenever the price extractor returns a value, that value is a list
of at most 3 pairwise-distinct strings, each drawn from the union of the
currency-filtered selector texts and the regex matches over the visible
body text, and it is the first 3 entries of that union's deduplication. -/
theorem price_result_capped_dedup (selectors : List String)
    (cssAll : String → List String) (body : String) (l : List String)
    (h : extract_price selectors cssAll body = some l) :
    l.length ≤ 3 ∧ l.Nodup ∧
    (∀ s ∈ l, s ∈ priceCandidates selectors cssAll body) ∧
    l = (dedupFirst (priceCandidates selectors cssAll body)).take 3 := by
  unfold extract_price at h
  by_cases he : (priceCandidates selectors cssAll body).isEmpty
  · rw [if_pos he] at h
    exact absurd h (by simp)
  · rw [if_neg he] at h
    injection h with h'
    subst h'
    refine ⟨List.length_take_le _ _, ?_, ?_, rfl⟩
    · exact (dedupFirst_nodup _).sublist (List.take_sublist _ _)
    · intro s hs
      exact dedupFirst_subset _ s (List.mem_of_mem_take hs)

/-- C4 witness: a page whose body text is `"¥9.90"` and whose selectors
match nothing. -/
theorem price_result_capped_dedup_witness :
    (["¥9.90"] : List String).length ≤ 3 ∧ (["¥9.90"] : List String).Nodup ∧
    (∀ s ∈ (["¥9.90"] : List String),
      s ∈ priceCandidates simple_price_selectors (fun _ => []) "¥9.90") ∧
    ["¥9.90"]
      = (dedupFirst (priceCandidates simple_price_selectors (fun _ => []) "¥9.90")).take 3 :=
  price_result_capped_dedup simple_price_selectors (fun _ => []) "¥9.90" ["¥9.90"]
    (by decide)

/-- C5 counterexample. On a page with no selector-extracted prices whose
visible body text contains both `"¥199.00"` and `"¥159.00-¥179.00"`, the
extractor returns `["¥199.00", "¥159.00", "¥179.00"]`: the exact range
string is not among the candidates, because the range pattern
`\d+\.\d+-\d+\.\d+` cannot match across the second `¥` sign and the yen
pattern `¥[\d,.]+` stops at the dash. -/
theorem price_range_string_missing :
    pyIn "¥199.00" rangeBody = true ∧
    pyIn "¥159.00-¥179.00" rangeBody = true ∧
    extract_price simple_price_selectors (fun _ => []) rangeBody
      = some ["¥199.00", "¥159.00", "¥179.00"] ∧
    ¬ ("¥159.00-¥179.00" ∈ (["¥199.00", "¥159.00", "¥179.00"] : List String)) := by
  decide

/-- C5 amended. On that page the extractor yields `"¥199.00"` among the
candidates together with the two endpoints `"¥159.00"` and `"¥179.00"` of
the range, but not the exact range string `"¥159.00-¥179.00"`. -/
theorem price_range_split_into_endpoints :
    extract_price simple_price_selectors (fun _ => []) rangeBody
      = some ["¥199.00", "¥159.00", "¥179.00"] ∧
    "¥199.00" ∈ (["¥199.00", "¥159.00", "¥179.00"] : List String) ∧
    "¥159.00" ∈ (["¥199.00", "¥159.00", "¥179.00"] : List String) ∧
    "¥179.00" ∈ (["¥199.00", "¥159.00", "¥179.00"] : List String) ∧
    ¬ ("¥159.00-¥179.00" ∈ (["¥199.00", "¥159.00", "¥179.00"] : List String)) := by
  decide

/-! ### Title extraction (claim C7) -/

/-- C7. The title extractor returns the first selector hit when one
exists; only when every selector fails does it consult the page-title
fallback, and a title produced by the fallback is the page title itself
and never contains the brand token `"1688"`. -/
theorem title_selector_priority (selectors : List String)
    (css1 : String → Option String) (pageTitle : Option String) :
    (∀ t, firstSelectorTitle css1 selectors = some t →
      extract_title selectors css1 pageTitle = some t) ∧
    (firstSelectorTitle css1 selectors = none →
      extract_title selectors css1 pageTitle = titleFallback pageTitle) ∧
    (∀ t, firstSelectorTitle css1 selectors = none →
      extract_title selectors css1 pageTitle = some t →
      pageTitle = some t ∧ pyIn "1688" t = false) := by
  refine ⟨?_, ?_, ?_⟩
  · intro t h
    simp [extract_title, h]
  · intro h
    simp [extract_title, h]
  · intro t hnone hsome
    simp only [extract_title, hnone] at hsome
    cases pageTitle with
    | none => exact absurd hsome (by simp [titleFallback])
    | some pt =>
      by_cases hc : pt ≠ "" ∧ pyIn "1688" pt = false
      · rw [titleFallback, if_pos hc] at hsome
        injection hsome with h'
        subst h'
        exact ⟨rfl, hc.2⟩
      · rw [titleFallback, if_neg hc] at hsome
        exact absurd hsome (by simp)

/-- C7 witness: a page with no selector hits whose page title
`"Wireless Mouse Wholesale"` lacks the brand token is returned by the
fallback and indeed does not contain `"1688"`. -/
theorem title_selector_priority_witness :
    some "Wireless Mouse Wholesale" = some "Wireless Mouse Wholesale" ∧
    pyIn "1688" "Wireless Mouse Wholesale" = false :=
  (title_selector_priority simple_title_selectors (fun _ => none)
    (some "Wireless Mouse Wholesale")).2.2 "Wireless Mouse Wholesale"
    (by decide) (by decide)

/-! ### The image collector and ranker (claims C2 and C3) -/

theorem collectStep_inv (acc : List ImageCandidate × List String)
    (c? : Option ImageCandidate)
    (h1 : (acc.1.map ImageCandidate.url).Nodup)
    (h2 : ∀ u ∈ acc.1.map ImageCandidate.url, u ∈ acc.2) :
    ((collectStep acc c?).1.map ImageCandidate.url).Nodup ∧
    ∀ u ∈ (collectStep acc c?).1.map ImageCandidate.url, u ∈ (collectStep acc c?).2 := by
  rcases c? with _ | c
  · exact ⟨h1, h2⟩
  · have e : collectStep acc (some c)
        = if c.url ∈ acc.2 then acc else (acc.1 ++ [c], c.url :: acc.2) := rfl
    rw [e]
    by_cases hseen : c.url ∈ acc.2
    · rw [if_pos hseen]
      exact ⟨h1, h2⟩
    · rw [if_neg hseen]
      constructor
      · rw [List.map_append, List.nodup_append]
        refine ⟨h1, List.nodup_singleton _, ?_⟩
        intro u hu hmem
        simp only [List.map_cons, List.map_nil, List.mem_singleton] at hmem
        subst hmem
        exact hseen (h2 _ hu)
      · intro u hu
        rw [List.map_append] at hu
        rcases List.mem_append.mp hu with h | h
        · exact List.mem_cons_of_mem _ (h2 u h)
        · simp only [List.map_cons, List.map_nil, List.mem_singleton] at h
          subst h
          exact List.mem_cons_self _ _

theorem collectPhase_inv {α : Type} (f : α → Option ImageCandidate)
    (items : List α) :
    ∀ acc : List ImageCandidate × List String,
    (acc.1.map ImageCandidate.url).Nodup →
    (∀ u ∈ acc.1.map ImageCandidate.url, u ∈ acc.2) →
    ((collectPhase f items acc).1.map ImageCandidate.url).Nodup ∧
    ∀ u ∈ (collectPhase f items acc).1.map ImageCandidate.url,
      u ∈ (collectPhase f items acc).2 := by
  induction items with
  | nil => intro acc h1 h2; exact ⟨h1, h2⟩
  | cons it rest ih =>
    intro acc h1 h2
    have step := collectStep_inv acc (f it) h1 h2
    simpa [collectPhase] using ih (collectStep acc (f it)) step.1 step.2

theorem collect_images_nodup (p : ImagePage) :
    ((collect_images p).map ImageCandidate.url).Nodup := by
  unfold collect_images
  have s1 := collectPhase_inv imgTagCandidate p.imgs ([], []) (by simp) (by simp)
  have s2 := collectPhase_inv regexCandidate p.regexMatches _ s1.1 s1.2
  have s3 := collectPhase_inv (fun pr => containerCandidate pr.1 pr.2)
    (p.containerImgs.flatMap (fun pr => pr.2.map (fun e => (pr.1, e)))) _ s2.1 s2.2
  have s4 := collectPhase_inv lazyCandidate p.lazyImgs _ s3.1 s3.2
  exact s4.1

theorem imageLE_trans (a b c : ImageCandidate) :
    imageLE a b → imageLE b c → imageLE a c := by
  simp only [imageLE, decide_eq_true_eq]
  omega

theorem imageLE_total (a b : ImageCandidate) : imageLE a b || imageLE b a := by
  simp only [imageLE, Bool.or_eq_true, decide_eq_true_eq]
  omega

/-- Stability of the quality sort: the candidates of any fixed score
appear in the sorted list exactly as they appear in the input. -/
theorem filter_score_mergeSort (l : List ImageCandidate) (s : Nat) :
    (l.mergeSort imageLE).filter (fun c => get_image_priority c == s)
      = l.filter (fun c => get_image_priority c == s) := by
  have hall : ∀ x ∈ l.filter (fun c => get_image_priority c == s),
      get_image_priority x = s := by
    intro x hx
    exact eq_of_beq (List.mem_filter.mp hx).2
  have hpair : (l.filter (fun c => get_image_priority c == s)).Pairwise
      (fun a b => imageLE a b = true) := by
    refine List.pairwise_of_forall_mem_list ?_
    intro a ha b hb
    simp [imageLE, hall a ha, hall b hb]
  have hsub2 : List.Sublist (l.filter (fun c => get_image_priority c == s))
      (l.mergeSort imageLE) :=
    List.sublist_mergeSort imageLE_trans imageLE_total hpair (List.filter_sublist l)
  have hfsub := hsub2.filter (fun c => get_image_priority c == s)
  rw [List.filter_eq_self.mpr (fun a ha => (List.mem_filter.mp ha).2)] at hfsub
  have hlen : ((l.mergeSort imageLE).filter (fun c => get_image_priority c == s)).length
      = (l.filter (fun c => get_image_priority c == s)).length :=
    ((List.mergeSort_perm l imageLE).filter _).length_eq
  exact (hfsub.eq_of_length hlen.symm).symm

/-- C2. The candidate list returned by the image collector has
pairwise-distinct URLs, is sorted in non-increasing order of quality
score, and the candidates of each fixed score appear exactly in their
discovery order (the order `collect_images` found them). -/
theorem image_candidates_ranked (p : ImagePage) :
    ((extract_images p).map ImageCandidate.url).Nodup ∧
    (extract_images p).Pairwise
      (fun a b => get_image_priority b ≤ get_image_priority a) ∧
    ∀ s : Nat,
      (extract_images p).filter (fun c => get_image_priority c == s)
        = (collect_images p).filter (fun c => get_image_priority c == s) := by
  by_cases he : (collect_images p).isEmpty
  · have hnil : collect_images p = [] := List.isEmpty_iff.mp he
    simp [extract_images, he, hnil]
  · have hx : extract_images p = (collect_images p).mergeSort imageLE := by
      simp [extract_images, he, sort_images_by_quality]
    refine ⟨?_, ?_, ?_⟩
    · rw [hx]
      exact (((List.mergeSort_perm (collect_images p) imageLE).map
        ImageCandidate.url).nodup_iff).mpr (collect_images_nodup p)
    · rw [hx]
      exact (List.sorted_mergeSort imageLE_trans imageLE_total
        (collect_images p)).imp
        (fun h => by simpa [imageLE, decide_eq_true_eq] using h)
    · intro s
      rw [hx, filter_score_mergeSort]

/-- C3 counterexample. A surviving gallery candidate with declared
300×300 dimensions and none of the four claimed bonus conditions scores
40, a value no combination of the claimed four bonuses (+100, +50, +30,
+20) can produce — the extra points come from the declared-dimensions
bonus the claim omits. -/
theorem image_priority_not_four_bonus_sum :
    extract_images galleryOnlyPage = [galleryCandidate] ∧
    get_image_priority galleryCandidate = 40 ∧
    (∃ a b c d : Bool, fourBonusSum a b c d = 40) = False := by
  refine ⟨?_, by decide, ?_⟩
  · have hc : collect_images galleryOnlyPage = [galleryCandidate] := by decide
    simp [extract_images, hc, sort_images_by_quality, List.mergeSort_singleton]
  · simp only [eq_iff_iff, iff_false]
    rintro ⟨a, b, c, d, h⟩
    revert h
    rcases a <;> rcases b <;> rcases c <;> rcases d <;> decide

/-- C3 amended. The quality score is the sum of exactly five bonuses: the
claimed +100 (large-rendition filename hint), +50 (preferred CDN host),
+30 (a dimension token `800`/`600`/`400` in the URL, not declared
dimensions) and +20 (direct DOM img-tag origin), plus a declared-size
bonus of +40 when both declared dimensions exceed 200 or +20 when both
exceed 100 (no bonus when a dimension fails to parse). -/
theorem image_priority_five_bonuses (img : ImageCandidate) :
    get_image_priority img = amendedImageScore img := by
  unfold get_image_priority amendedImageScore largeRenditionHint
    preferredCDNHost urlDimensionToken declaredDimsBonus
  simp only [List.any_cons, List.any_nil, Bool.or_false, Bool.or_assoc]

/-! ### The extraction record's shape (claim C10) -/

/-- C10 counterexample. The two item pipelines do not build records over
the same fixed key set: the batch script's record carries the key
`"description"` (and `"contact_info"`), which is not among the nine keys
the claim fixes. -/
theorem record_key_sets_differ :
    (extract_all_data 1 emptyPage).map Prod.fst ≠ claimedRecordKeys ∧
    "description" ∈ (extract_all_data 1 emptyPage).map Prod.fst ∧
    "description" ∉ claimedRecordKeys := by
  refine ⟨?_, ?_, by decide⟩
  · intro h
    have : ("description" : String)
        ∈ (extract_all_data 1 emptyPage).map Prod.fst := by
      show "description" ∈ ["index", "url", "timestamp", "title", "price",
        "images", "supplier", "specifications", "description", "moq",
        "contact_info"]
      decide
    rw [h] at this
    exact absurd this (by decide)
  · show "description" ∈ ["index", "url", "timestamp", "title", "price",
      "images", "supplier", "specifications", "description", "moq",
      "contact_info"]
    decide

/-- C10 amended. On every page, the simple pipeline's record has exactly
the nine claimed keys and the batch pipeline's record has those nine plus
`description` and `contact_info`; in both, the collection-valued fields
are never `None`: `images` always holds a list and `specifications`
always holds a map, while the optional fields hold `None` when their
extraction finds nothing. -/
theorem record_fields_always_present (i : Nat) (p : Page) :
    (extract_single_product i p).map Prod.fst = claimedRecordKeys ∧
    (extract_all_data i p).map Prod.fst
      = ["index", "url", "timestamp", "title", "price", "images", "supplier",
         "specifications", "description", "moq", "contact_info"] ∧
    (∃ l, recGet? (extract_single_product i p) "images"
      = some (PyValue.vimgList l)) ∧
    (∃ m, recGet? (extract_single_product i p) "specifications"
      = some (PyValue.vspecMap m)) ∧
    (∃ l, recGet? (extract_all_data i p) "images"
      = some (PyValue.vbatchImgList l)) ∧
    (∃ m, recGet? (extract_all_data i p) "specifications"
      = some (PyValue.vspecMap m)) :=
  ⟨rfl, rfl, ⟨_, rfl⟩, ⟨_, rfl⟩, ⟨_, rfl⟩, ⟨_, rfl⟩⟩

end AlibabaCrawler
